import Mathlib

/-!
Verification of the OAuth token-lifecycle core of `better-email-mcp`:
the encrypted token store (`store.ts`), expiry-aware refresh
(`refresh.ts`), provider detection (`providers.ts`) and the local
callback listener (`flow.ts`), shallowly embedded in Lean.

External `node:crypto` primitives (scrypt, AES-256-GCM) are not code of
the repository; they are modelled by an executable keyed stream cipher
with an authentication tag that keeps the structure the store relies
on: key derived from the salt, ciphertext invertible under the same
key/iv, tag checked on decryption.  The serialization format
(`salt:iv:tag:ciphertext`, hex parts joined by a colon) is embedded
exactly as in the source.
-/

/-- Hex value of a lowercase hex digit character, as in `Buffer` hex decoding. -/
def hexVal (c : Char) : Option Nat :=
  if '0' ≤ c ∧ c ≤ '9' then some (c.toNat - 48)
  else if 'a' ≤ c ∧ c ≤ 'f' then some (c.toNat - 87)
  else none

/-- The lowercase hex digit character for a value `< 16`. -/
def hexDigitChar (n : Nat) : Char :=
  if n < 10 then Char.ofNat (48 + n) else Char.ofNat (87 + n)

/-- Fixed-width big-endian hex rendering of a natural number. -/
def hexFixed : Nat → Nat → List Char
  | 0, _ => []
  | w + 1, n => hexFixed w (n / 16) ++ [hexDigitChar (n % 16)]

/-- Accumulator-style hex parser. -/
def hexParseAux (acc : Nat) : List Char → Option Nat
  | [] => some acc
  | c :: cs =>
    match hexVal c with
    | none => none
    | some d => hexParseAux (16 * acc + d) cs

/-- Parse a list of hex digit characters as a natural number. -/
def hexParse (l : List Char) : Option Nat := hexParseAux 0 l

theorem hexVal_hexDigitChar {d : Nat} (h : d < 16) :
    hexVal (hexDigitChar d) = some d := by
  have H : ∀ e, e < 16 → hexVal (hexDigitChar e) = some e := by decide
  exact H d h

theorem hexDigitChar_ne_colon {d : Nat} (h : d < 16) : hexDigitChar d ≠ ':' := by
  have H : ∀ e, e < 16 → hexDigitChar e ≠ ':' := by decide
  exact H d h

theorem hexVal_isSome_hexDigitChar {d : Nat} (h : d < 16) :
    (hexVal (hexDigitChar d)).isSome = true := by
  rw [hexVal_hexDigitChar h]; rfl

theorem hexFixed_length (w n : Nat) : (hexFixed w n).length = w := by
  induction w generalizing n with
  | zero => rfl
  | succ w ih => simp [hexFixed, ih]

theorem hexFixed_mem {w n : Nat} {c : Char} (h : c ∈ hexFixed w n) :
    ∃ d, d < 16 ∧ c = hexDigitChar d := by
  induction w generalizing n with
  | zero => simp [hexFixed] at h
  | succ w ih =>
    simp only [hexFixed, List.mem_append, List.mem_singleton] at h
    rcases h with h | h
    · exact ih h
    · exact ⟨n % 16, Nat.mod_lt _ (by norm_num), h⟩

theorem hexFixed_ne_colon {w n : Nat} {c : Char} (h : c ∈ hexFixed w n) : c ≠ ':' := by
  obtain ⟨d, hd, rfl⟩ := hexFixed_mem h
  exact hexDigitChar_ne_colon hd

theorem hexParseAux_append (acc : Nat) (l₁ l₂ : List Char) :
    hexParseAux acc (l₁ ++ l₂) =
      (hexParseAux acc l₁).bind (fun a => hexParseAux a l₂) := by
  induction l₁ generalizing acc with
  | nil => rfl
  | cons c cs ih =>
    simp only [List.cons_append, hexParseAux]
    cases hexVal c with
    | none => rfl
    | some d => exact ih _

theorem hexParseAux_hexFixed {w n : Nat} (acc : Nat) (h : n < 16 ^ w) :
    hexParseAux acc (hexFixed w n) = some (acc * 16 ^ w + n) := by
  induction w generalizing acc n with
  | zero =>
    have : n = 0 := Nat.lt_one_iff.mp (by simpa using h)
    subst this; simp [hexFixed, hexParseAux]
  | succ w ih =>
    have hdiv : n / 16 < 16 ^ w := by
      rw [Nat.div_lt_iff_lt_mul (by norm_num)]
      calc n < 16 ^ (w + 1) := h
      _ = 16 ^ w * 16 := by ring
    simp only [hexFixed, hexParseAux_append, ih acc hdiv, Option.some_bind, hexParseAux,
      hexVal_hexDigitChar (Nat.mod_lt n (by norm_num : (0 : Nat) < 16))]
    congr 1
    have h16 : (16 : Nat) ^ (w + 1) = 16 ^ w * 16 := pow_succ 16 w
    have hm : 16 * (n / 16) + n % 16 = n := by omega
    calc 16 * (acc * 16 ^ w + n / 16) + n % 16
        = acc * (16 ^ w * 16) + (16 * (n / 16) + n % 16) := by ring
      _ = acc * 16 ^ (w + 1) + n := by rw [hm, ← h16]

theorem hexParse_hexFixed {w n : Nat} (h : n < 16 ^ w) :
    hexParse (hexFixed w n) = some n := by
  simpa using hexParseAux_hexFixed 0 h

/-- Split a character list on a separator, as `String.prototype.split`. -/
def splitSep (sep : Char) : List Char → List (List Char)
  | [] => [[]]
  | c :: cs =>
    if c = sep then [] :: splitSep sep cs
    else
      match splitSep sep cs with
      | [] => [[c]]
      | p :: ps => (c :: p) :: ps

/-- Join parts with a separator, the inverse of `splitSep` for colon-free parts. -/
def joinSep (sep : Char) : List (List Char) → List Char
  | [] => []
  | [p] => p
  | p :: ps => p ++ sep :: joinSep sep ps

theorem splitSep_ne_nil (sep : Char) (l : List Char) : splitSep sep l ≠ [] := by
  cases l with
  | nil => simp [splitSep]
  | cons c cs =>
    simp only [splitSep]
    split
    · simp
    · split
      · simp
      · simp

theorem splitSep_no_sep {sep : Char} {l : List Char} (h : sep ∉ l) :
    splitSep sep l = [l] := by
  induction l with
  | nil => rfl
  | cons c cs ih =>
    simp only [List.mem_cons, not_or] at h
    have hcs : ¬(c = sep) := fun hc => h.1 hc.symm
    simp only [splitSep, if_neg hcs]
    rw [ih h.2]

theorem splitSep_append_sep {sep : Char} {p : List Char} (r : List Char)
    (h : sep ∉ p) : splitSep sep (p ++ sep :: r) = p :: splitSep sep r := by
  induction p with
  | nil => simp [splitSep]
  | cons c cs ih =>
    simp only [List.mem_cons, not_or] at h
    have hcs : ¬(c = sep) := fun hc => h.1 hc.symm
    simp only [List.cons_append, splitSep, if_neg hcs, List.append_eq]
    rw [ih h.2]

theorem splitSep_joinSep {sep : Char} {parts : List (List Char)}
    (hne : parts ≠ []) (h : ∀ p ∈ parts, sep ∉ p) :
    splitSep sep (joinSep sep parts) = parts := by
  induction parts with
  | nil => exact absurd rfl hne
  | cons p ps ih =>
    cases ps with
    | nil =>
      simp only [joinSep]
      exact splitSep_no_sep (h p (by simp))
    | cons q qs =>
      simp only [joinSep]
      rw [splitSep_append_sep _ (h p (by simp))]
      rw [ih (by simp) (fun x hx => h x (List.mem_cons_of_mem _ hx))]

/-! ## Encryption model (`store.ts` `encrypt`/`decrypt`)

`scrypt` and AES-256-GCM come from `node:crypto`, outside the
repository; they are modelled by an executable keyed stream cipher over
code points with an authentication tag.  Symbols live below
`symBound = 16^6` (every Unicode code point fits), so each ciphertext
symbol hex-encodes in exactly 6 digits; the salt and iv are rendered in
8 hex digits.  The `salt:iv:tag:ciphertext` wire format, the colon
split, and the fail-closed part-count check are embedded exactly as in
the source. -/

/-- Bound for cipher symbols: `16^6`, above every Unicode code point. -/
def symBound : Nat := 16 ^ 6

/-- Model of `deriveKey` (scrypt of a machine passphrase seeded by the salt). -/
def deriveKey (salt : Nat) : Nat := (salt * 7919 + 104729) % symBound

/-- Key stream of the modelled cipher at position `i`. -/
def keyStream (key iv i : Nat) : Nat := (key * 31 + iv * 17 + i * 131 + 7) % symBound

/-- Encrypt a symbol list with the key stream (model of `cipher.update`). -/
def encSyms (key iv : Nat) : Nat → List Nat → List Nat
  | _, [] => []
  | i, p :: ps => (p + keyStream key iv i) % symBound :: encSyms key iv (i + 1) ps

/-- Decrypt a symbol list with the key stream (model of `decipher.update`). -/
def decSyms (key iv : Nat) : Nat → List Nat → List Nat
  | _, [] => []
  | i, c :: cs =>
    (c + (symBound - keyStream key iv i % symBound)) % symBound :: decSyms key iv (i + 1) cs

/-- Authentication tag of a ciphertext (model of the GCM auth tag). -/
def authTag (key iv : Nat) (cs : List Nat) : Nat :=
  (key + iv * 31 + cs.foldl (fun a c => (a * 131 + c + 7) % symBound) 0) % symBound

/-- Hex-encode a symbol list, 6 digits per symbol. -/
def hexSyms : List Nat → List Char
  | [] => []
  | s :: ss => hexFixed 6 s ++ hexSyms ss

/-- Parse a hex symbol list back, 6 digits per symbol; fails closed. -/
def parseSyms : List Char → Option (List Nat)
  | [] => some []
  | c1 :: c2 :: c3 :: c4 :: c5 :: c6 :: rest =>
    match hexParse [c1, c2, c3, c4, c5, c6], parseSyms rest with
    | some v, some vs => some (v :: vs)
    | _, _ => none
  | _ => none

theorem decSyms_encSyms (key iv : Nat) (i : Nat) (ps : List Nat)
    (h : ∀ p ∈ ps, p < symBound) :
    decSyms key iv i (encSyms key iv i ps) = ps := by
  induction ps generalizing i with
  | nil => rfl
  | cons p ps ih =>
    have hp : p < symBound := h p (by simp)
    simp only [encSyms, decSyms, List.cons.injEq]
    refine ⟨?_, ih (i + 1) (fun q hq => h q (by simp [hq]))⟩
    generalize keyStream key iv i = k
    simp only [symBound] at hp ⊢
    norm_num at hp ⊢
    omega

theorem encSyms_lt (key iv i : Nat) (ps : List Nat) :
    ∀ c ∈ encSyms key iv i ps, c < symBound := by
  induction ps generalizing i with
  | nil => simp [encSyms]
  | cons p ps ih =>
    intro c hc
    simp only [encSyms, List.mem_cons] at hc
    rcases hc with rfl | hc
    · exact Nat.mod_lt _ (by norm_num [symBound])
    · exact ih (i + 1) c hc

theorem hexSyms_no_colon {ss : List Nat} {c : Char} (h : c ∈ hexSyms ss) : c ≠ ':' := by
  induction ss with
  | nil => simp [hexSyms] at h
  | cons s ss ih =>
    simp only [hexSyms, List.mem_append] at h
    rcases h with h | h
    · exact hexFixed_ne_colon h
    · exact ih h

theorem hexSyms_isHex {ss : List Nat} {c : Char} (h : c ∈ hexSyms ss) :
    (hexVal c).isSome = true := by
  induction ss with
  | nil => simp [hexSyms] at h
  | cons s ss ih =>
    simp only [hexSyms, List.mem_append] at h
    rcases h with h | h
    · obtain ⟨d, hd, rfl⟩ := hexFixed_mem h
      exact hexVal_isSome_hexDigitChar hd
    · exact ih h

theorem list_len6 {α : Type} {l : List α} (h : l.length = 6) :
    ∃ a b c d e f, l = [a, b, c, d, e, f] := by
  match l with
  | [a, b, c, d, e, f] => exact ⟨a, b, c, d, e, f, rfl⟩
  | [] | [_] | [_, _] | [_, _, _] | [_, _, _, _] | [_, _, _, _, _] => simp at h
  | _ :: _ :: _ :: _ :: _ :: _ :: _ :: _ => simp at h

theorem parseSyms_hexSyms {ss : List Nat} (h : ∀ s ∈ ss, s < symBound) :
    parseSyms (hexSyms ss) = some ss := by
  induction ss with
  | nil => simp [hexSyms, parseSyms]
  | cons s ss ih =>
    have hs : s < symBound := h s (by simp)
    have hlen : (hexFixed 6 s).length = 6 := hexFixed_length 6 s
    obtain ⟨a, b, c, d, e, f, hfix⟩ := list_len6 hlen
    rw [hexSyms, hfix]
    simp only [List.cons_append, List.nil_append, parseSyms]
    rw [show [a, b, c, d, e, f] = hexFixed 6 s from hfix.symm,
      hexParse_hexFixed (by simpa [symBound] using hs)]
    simp only [List.append_eq, List.nil_append]
    rw [ih (fun q hq => h q (by simp [hq]))]

/-- Code points of a string, the plaintext symbol sequence. -/
def strSyms (s : String) : List Nat := s.data.map Char.toNat

/-- Rebuild a string from decrypted symbols (model of utf8 decoding,
which in Node replaces invalid sequences rather than throwing). -/
def symsStr (ss : List Nat) : String := String.mk (ss.map Char.ofNat)

/--
`encrypt` from `store.ts`: fresh random `salt` and `iv` are drawn by the
caller of this model; the key is derived from the salt; the output is
`salt:iv:tag:ciphertext`, all hex, joined with the `:` delimiter.
-/
def encrypt (salt iv : Nat) (plaintext : String) : String :=
  let key := deriveKey salt
  let cs := encSyms key iv 0 (strSyms plaintext)
  let tag := authTag key iv cs
  String.mk (joinSep ':' [hexFixed 8 salt, hexFixed 8 iv, hexFixed 6 tag, hexSyms cs])

/--
`decrypt` from `store.ts`: split on `:`, require exactly four parts
(fail closed otherwise), parse the hex fields, re-derive the key from
the salt, check the auth tag, and invert the cipher.
-/
def decrypt (ciphertext : String) : Option String :=
  match splitSep ':' ciphertext.data with
  | [sp, ip, tp, cp] =>
    match hexParse sp, hexParse ip, hexParse tp, parseSyms cp with
    | some salt, some iv, some tag, some cs =>
      let key := deriveKey salt
      if authTag key iv cs = tag then some (symsStr (decSyms key iv 0 cs))
      else none
    | _, _, _, _ => none
  | _ => none

theorem strSyms_lt (s : String) : ∀ p ∈ strSyms s, p < symBound := by
  intro p hp
  simp only [strSyms, List.mem_map] at hp
  obtain ⟨c, _, rfl⟩ := hp
  have hv := c.valid
  have : c.toNat < 1114112 := by
    rcases hv with h | h
    · exact Nat.lt_trans h (by norm_num)
    · exact h.2
  calc c.toNat < 1114112 := this
    _ < symBound := by norm_num [symBound]

theorem symsStr_strSyms (s : String) : symsStr (strSyms s) = s := by
  cases s with
  | mk data =>
    simp only [symsStr, strSyms, List.map_map]
    congr 1
    have : ∀ l : List Char, l.map (Char.ofNat ∘ Char.toNat) = l := by
      intro l
      induction l with
      | nil => rfl
      | cons c cs ih => simp [Function.comp, Char.ofNat_toNat, ih]
    exact this data

/-- The four parts produced by `encrypt`, before joining. -/
def encParts (salt iv : Nat) (plaintext : String) : List (List Char) :=
  let key := deriveKey salt
  let cs := encSyms key iv 0 (strSyms plaintext)
  [hexFixed 8 salt, hexFixed 8 iv, hexFixed 6 (authTag key iv cs), hexSyms cs]

theorem encrypt_data (salt iv : Nat) (s : String) :
    (encrypt salt iv s).data = joinSep ':' (encParts salt iv s) := rfl

theorem encParts_no_colon (salt iv : Nat) (s : String) :
    ∀ p ∈ encParts salt iv s, ':' ∉ p := by
  intro p hp
  simp only [encParts, List.mem_cons, List.not_mem_nil, or_false] at hp
  intro hc
  rcases hp with rfl | rfl | rfl | rfl
  · exact hexFixed_ne_colon hc rfl
  · exact hexFixed_ne_colon hc rfl
  · exact hexFixed_ne_colon hc rfl
  · exact hexSyms_no_colon hc rfl

theorem splitSep_encrypt (salt iv : Nat) (s : String) :
    splitSep ':' (encrypt salt iv s).data = encParts salt iv s := by
  rw [encrypt_data]
  exact splitSep_joinSep (by simp [encParts]) (encParts_no_colon salt iv s)

/-- Round trip of the store's cipher: decryption of a fresh encryption
recovers the plaintext, provided the salt and iv fit their hex widths. -/
theorem decrypt_encrypt {salt iv : Nat} (hs : salt < 16 ^ 8) (hi : iv < 16 ^ 8)
    (s : String) : decrypt (encrypt salt iv s) = some s := by
  have hcs := encSyms_lt (deriveKey salt) iv 0 (strSyms s)
  have htag : authTag (deriveKey salt) iv (encSyms (deriveKey salt) iv 0 (strSyms s))
      < 16 ^ 6 := by
    unfold authTag
    exact Nat.mod_lt _ (by norm_num [symBound])
  unfold decrypt
  rw [splitSep_encrypt]
  simp only [encParts]
  rw [hexParse_hexFixed hs, hexParse_hexFixed hi, hexParse_hexFixed htag,
    parseSyms_hexSyms hcs]
  show (if authTag (deriveKey salt) iv (encSyms (deriveKey salt) iv 0 (strSyms s))
        = authTag (deriveKey salt) iv (encSyms (deriveKey salt) iv 0 (strSyms s))
      then some (symsStr (decSyms (deriveKey salt) iv 0
        (encSyms (deriveKey salt) iv 0 (strSyms s))))
      else none) = some s
  rw [if_pos rfl, decSyms_encSyms _ _ _ _ (strSyms_lt s), symsStr_strSyms]

/-! ## Token store (`store.ts`)

The filesystem is modelled as an association list from filename to file
content.  A token file is either unparseable JSON (`malformed`) or a
parsed record whose secret fields are the serialized ciphertext
strings, exactly the object `saveTokens` writes. -/

/-- `StoredTokens` from `store.ts` (decrypted, in-memory form). -/
structure StoredTokens where
  email : String
  provider : String
  accessToken : String
  refreshToken : String
  tokenExpiry : Int
  scopes : List String
  createdAt : String
  updatedAt : String
deriving DecidableEq

/-- On-disk shape of one account file: what `saveTokens` serializes. -/
structure TokenFileRec where
  email : String
  provider : String
  accessTokenEnc : String
  refreshTokenEnc : String
  tokenExpiry : Int
  scopes : List String
  createdAt : String
  updatedAt : String
deriving DecidableEq

/-- Content of a stored account file; `malformed` models JSON that fails to parse. -/
inductive TokenFile
  | malformed
  | parsed (r : TokenFileRec)
deriving DecidableEq

/-- The `accounts/` directory: filename-keyed files. -/
def AccountsDir := List (String × TokenFile)

/-- `emailToFilename` from `store.ts`:
`email.replace(/[@.]/g, '_').toLowerCase() + '.json'`. -/
def emailToFilename (email : String) : String :=
  String.mk
    (((email.data.map fun c => if c = '@' ∨ c = '.' then '_' else c).map
      Char.toLower) ++ ".json".data)

/-- Write (or overwrite) one file, as `writeFileSync` on a fresh or existing path. -/
def writeFile (fs : AccountsDir) (name : String) (content : TokenFile) : AccountsDir :=
  (name, content) :: fs.filter (fun p => p.1 ≠ name)

/-- Look a file up, as `existsSync` + `readFileSync`. -/
def readFile (fs : AccountsDir) (name : String) : Option TokenFile :=
  fs.lookup name

/-- Random salt/iv pairs drawn for the two `encrypt` calls of `saveTokens`. -/
structure SaltPack where
  accessSalt : Nat
  accessIv : Nat
  refreshSalt : Nat
  refreshIv : Nat
deriving DecidableEq

/-- `saveTokens` from `store.ts`: encrypt both secret fields with fresh
randomness, stamp `updatedAt`, and overwrite the account's file. -/
def saveTokens (fs : AccountsDir) (t : StoredTokens) (sp : SaltPack)
    (nowIso : String) : AccountsDir :=
  writeFile fs (emailToFilename t.email) (.parsed
    { email := t.email
      provider := t.provider
      accessTokenEnc := encrypt sp.accessSalt sp.accessIv t.accessToken
      refreshTokenEnc := encrypt sp.refreshSalt sp.refreshIv t.refreshToken
      tokenExpiry := t.tokenExpiry
      scopes := t.scopes
      createdAt := t.createdAt
      updatedAt := nowIso })

/-- `loadTokens` from `store.ts`: `none` on a missing file, and `none`
(the `catch` branch) on a JSON parse failure or a decryption failure of
either secret field. -/
def loadTokens (fs : AccountsDir) (email : String) : Option StoredTokens :=
  match readFile fs (emailToFilename email) with
  | none => none
  | some .malformed => none
  | some (.parsed r) =>
    match decrypt r.accessTokenEnc, decrypt r.refreshTokenEnc with
    | some a, some rt =>
      some { email := r.email
             provider := r.provider
             accessToken := a
             refreshToken := rt
             tokenExpiry := r.tokenExpiry
             scopes := r.scopes
             createdAt := r.createdAt
             updatedAt := r.updatedAt }
    | _, _ => none

/-- `deleteTokens` from `store.ts`: `false` when the file is missing,
else unlink it and return `true`. -/
def deleteTokens (fs : AccountsDir) (email : String) : Bool × AccountsDir :=
  let name := emailToFilename email
  match fs.lookup name with
  | none => (false, fs)
  | some _ => (true, fs.filter (fun p => p.1 ≠ name))

/-- `hasTokens` from `store.ts`: a bare `existsSync` on the account file. -/
def hasTokens (fs : AccountsDir) (email : String) : Bool :=
  (fs.lookup (emailToFilename email)).isSome

/-- `OAuthClientConfig` from `store.ts`. -/
structure OAuthClientConfig where
  provider : String
  clientId : String
  clientSecret : String
deriving DecidableEq

/-! ## Provider registry (`providers.ts`) -/

/-- `OAuthProviderConfig` from `providers.ts`. -/
structure OAuthProviderConfig where
  name : String
  authorizationEndpoint : String
  tokenEndpoint : String
  scopes : List String
  domains : List String
deriving DecidableEq

/-- `GOOGLE_PROVIDER` from `providers.ts`. -/
def GOOGLE_PROVIDER : OAuthProviderConfig :=
  { name := "google"
    authorizationEndpoint := "https://accounts.google.com/o/oauth2/v2/auth"
    tokenEndpoint := "https://oauth2.googleapis.com/token"
    scopes := ["https://mail.google.com/"]
    domains := ["gmail.com", "googlemail.com"] }

/-- `MICROSOFT_PROVIDER` from `providers.ts`. -/
def MICROSOFT_PROVIDER : OAuthProviderConfig :=
  { name := "microsoft"
    authorizationEndpoint := "https://login.microsoftonline.com/common/oauth2/v2.0/authorize"
    tokenEndpoint := "https://login.microsoftonline.com/common/oauth2/v2.0/token"
    scopes := ["https://outlook.office365.com/IMAP.AccessAsUser.All",
               "https://outlook.office365.com/SMTP.Send",
               "offline_access"]
    domains := ["outlook.com", "hotmail.com", "live.com"] }

/-- `PROVIDERS` from `providers.ts`. -/
def PROVIDERS : List OAuthProviderConfig := [GOOGLE_PROVIDER, MICROSOFT_PROVIDER]

/-- Per-provider loop body of `detectProvider`: exact domain match first,
then the `domain.endsWith('.' + d)` subdomain match, then the next provider. -/
def findProvider (dom : List Char) : List OAuthProviderConfig → Option OAuthProviderConfig
  | [] => none
  | p :: ps =>
    if p.domains.any (fun d => d.data == dom) then some p
    else if p.domains.any (fun d => List.isSuffixOf ('.' :: d.data) dom) then some p
    else findProvider dom ps

/-- `detectProvider` from `providers.ts`: take the part after the first
`@`, lowercase it, fail on a missing or empty domain, then scan the
provider table. -/
def detectProvider (email : String) : Option OAuthProviderConfig :=
  match (splitSep '@' email.data).get? 1 with
  | none => none
  | some d =>
    let dom := d.map Char.toLower
    if dom = [] then none else findProvider dom PROVIDERS

/-- `isOAuthSupported` from `providers.ts`. -/
def isOAuthSupported (email : String) : Bool :=
  (detectProvider email).isSome

/-! ## Token refresh (`refresh.ts`)

The `fetch` of the refresh grant is modelled by passing the provider's
HTTP answer as a value; the returned `Nat` counts how many refresh-grant
network calls the run performed. -/

/-- JavaScript `x || d` for a string that may be `undefined`:
`undefined` and the empty string are falsy. -/
def jsOrString (o : Option String) (d : String) : String :=
  match o with
  | none => d
  | some s => if s = "" then d else s

/-- JavaScript `x || 3600` for `expires_in`: `undefined` and `0` are falsy. -/
def jsOrExpires (o : Option Int) : Int :=
  match o with
  | none => 3600
  | some n => if n = 0 then 3600 else n

/-- Parsed JSON body of a token-endpoint response. -/
structure RespJson where
  access_token : Option String
  refresh_token : Option String
  expires_in : Option Int
deriving DecidableEq

/-- An HTTP response from the provider's token endpoint; `json = none`
models a body that fails JSON parsing. -/
structure HttpResponse where
  status : Nat
  body : String
  json : Option RespJson
deriving DecidableEq

/-- `response.ok` of `fetch`: status in the 2xx range. -/
def respOk (r : HttpResponse) : Bool := 200 ≤ r.status && r.status ≤ 299

/-- The distinct failures `refresh.ts` can throw. -/
inductive RefreshError
  | noTokensFound (email : String)
  | unknownProvider (email : String)
  | noClientConfig (provider : String)
  | noRefreshToken (email : String)
  | reauthenticate (email : String) (body : String)
  | transientFailure (status : Nat) (body : String)
  | malformedResponse
deriving DecidableEq

/-- Successful outcome of `refreshAccessToken`. -/
structure RefreshResult where
  accessToken : String
  expiresIn : Int
  refreshToken : Option String
deriving DecidableEq

/-- The `oauth-clients.json` table read by `loadClientConfig`. -/
def ClientTable := List (String × OAuthClientConfig)

/-- `refreshAccessToken` from `refresh.ts`.  Returns the thrown error or
the parsed result, paired with the number of refresh-grant calls issued
(0 when the run fails before `fetch`, 1 once `fetch` ran).  Status 400
and 401 map to the re-authenticate error; any other non-2xx status maps
to the generic transient failure carrying the status. -/
def refreshAccessToken (clients : ClientTable) (tokens : StoredTokens)
    (resp : HttpResponse) : Except RefreshError RefreshResult × Nat :=
  match detectProvider tokens.email with
  | none => (.error (.unknownProvider tokens.email), 0)
  | some provider =>
    match clients.lookup provider.name with
    | none => (.error (.noClientConfig provider.name), 0)
    | some _ =>
      if tokens.refreshToken = "" then (.error (.noRefreshToken tokens.email), 0)
      else if ¬respOk resp then
        if resp.status = 400 ∨ resp.status = 401 then
          (.error (.reauthenticate tokens.email resp.body), 1)
        else (.error (.transientFailure resp.status resp.body), 1)
      else
        match resp.json with
        | none => (.error .malformedResponse, 1)
        | some data =>
          match data.access_token with
          | none => (.error .malformedResponse, 1)
          | some a =>
            if a = "" then (.error .malformedResponse, 1)
            else
              (.ok { accessToken := a
                     expiresIn := jsOrExpires data.expires_in
                     refreshToken := data.refresh_token }, 1)

/-- `REFRESH_BUFFER_MS` from `refresh.ts`. -/
def REFRESH_BUFFER_MS : Int := 60000

/-- `ensureFreshToken` from `refresh.ts`: load the record, serve the
cached access token while `Date.now() < tokenExpiry - REFRESH_BUFFER_MS`
(and `tokenExpiry` is truthy), otherwise run the refresh grant, persist
the updated record and return the new access token.  The result carries
the new accounts directory and the number of refresh-grant calls. -/
def ensureFreshToken (fs : AccountsDir) (clients : ClientTable) (now : Int)
    (resp : HttpResponse) (sp : SaltPack) (nowIso : String) (email : String) :
    Except RefreshError String × AccountsDir × Nat :=
  match loadTokens fs email with
  | none => (.error (.noTokensFound email), fs, 0)
  | some tokens =>
    if tokens.tokenExpiry ≠ 0 ∧ now < tokens.tokenExpiry - REFRESH_BUFFER_MS then
      (.ok tokens.accessToken, fs, 0)
    else
      match refreshAccessToken clients tokens resp with
      | (.error e, n) => (.error e, fs, n)
      | (.ok refreshed, n) =>
        let updated : StoredTokens :=
          { tokens with
            accessToken := refreshed.accessToken
            tokenExpiry := now + refreshed.expiresIn * 1000
            refreshToken := jsOrString refreshed.refreshToken tokens.refreshToken
            updatedAt := nowIso }
        (.ok refreshed.accessToken, saveTokens fs updated sp nowIso, n)

/-! ## Callback listener (`flow.ts` `waitForCallback` and `runOAuthFlow`)

The promise of `waitForCallback` settles at most once (later `resolve`
and `reject` calls are no-ops); the settlement is the listener state.
`closeCount` counts `server.close()` invocations, so "closed exactly
once" is `closeCount` rising by one.  The request handler is embedded
line by line from `waitForCallback`; note that it never calls
`server.close()` itself: the success path hands back a `close` callback
and the timeout path closes directly. -/

/-- One GET request to the local callback server. -/
structure CallbackReq where
  path : String
  code : Option String
  reqState : Option String
  error : Option String
  errorDescription : Option String
deriving DecidableEq

/-- Settlement state of the `waitForCallback` promise. -/
inductive LState
  | listening
  | resolved (code : String)
  | denied (description : String)
  | mismatched
  | timedOut
deriving DecidableEq

/-- The callback listener: promise settlement plus socket close count. -/
structure Listener where
  lstate : LState
  closeCount : Nat
deriving DecidableEq

/-- HTTP answer the handler writes for one request. -/
inductive CallbackResp
  | notFound
  | successPage
  | errorPage (message : String)
  | badRequestPage (message : String)
deriving DecidableEq

/-- Status code of each handler answer, as written by `res.writeHead`. -/
def respStatusCode : CallbackResp → Nat
  | .notFound => 404
  | .successPage => 200
  | .errorPage _ => 200
  | .badRequestPage _ => 400

/-- A promise settles only once: later settlements are ignored. -/
def settle (l : Listener) (s : LState) : Listener :=
  if l.lstate = LState.listening then { l with lstate := s } else l

/-- The request handler of `waitForCallback`, embedded from `flow.ts`:
404 off the callback path; the `error` branch (JS truthiness: present
and non-empty) answers 200 with the error page and rejects; a missing
or empty `code`, or a `state` differing from `expectedState`, answers
400 and rejects; otherwise resolve with the code and answer 200.  No
branch closes the socket. -/
def handleRequest (expectedState : String) (l : Listener) (r : CallbackReq) :
    Listener × CallbackResp :=
  if r.path ≠ "/callback" then (l, .notFound)
  else
    let errTruthy := match r.error with | none => false | some e => e ≠ ""
    if errTruthy then
      let e := match r.error with | none => "" | some e => e
      let description := jsOrString r.errorDescription e
      (settle l (.denied description), .errorPage description)
    else
      match r.code with
      | none => (settle l .mismatched,
          .badRequestPage "Invalid callback: missing code or state mismatch")
      | some c =>
        if c = "" ∨ r.reqState ≠ some expectedState then
          (settle l .mismatched,
            .badRequestPage "Invalid callback: missing code or state mismatch")
        else (settle l (.resolved c), .successPage)

/-- The 5-minute timer of `waitForCallback`: `server.close()` then
reject; the close happens unconditionally, the rejection only if the
promise is still pending. -/
def handleTimeout (l : Listener) : Listener :=
  { (settle l .timedOut) with closeCount := l.closeCount + 1 }

/-- The `close` callback returned with a resolved code
(`close: () => server.close()`). -/
def closeCallback (l : Listener) : Listener :=
  { l with closeCount := l.closeCount + 1 }

/-- Steps 8–9 of `runOAuthFlow`: after `waitForCallback` resolved, the
code is exchanged; `close()` runs only after a successful exchange, so
an exchange failure propagates with the listener still open. -/
def runFlowExchangeStep {α : Type} (l : Listener) (exchange : Except String α) :
    Listener × Except String α :=
  match exchange with
  | .error e => (l, .error e)
  | .ok v => (closeCallback l, .ok v)

/-! ## Helper lemmas about the store -/

theorem loadTokens_saveTokens (fs : AccountsDir) (t : StoredTokens) (sp : SaltPack)
    (nowIso : String) (hs1 : sp.accessSalt < 16 ^ 8) (hi1 : sp.accessIv < 16 ^ 8)
    (hs2 : sp.refreshSalt < 16 ^ 8) (hi2 : sp.refreshIv < 16 ^ 8) :
    loadTokens (saveTokens fs t sp nowIso) t.email =
      some { t with updatedAt := nowIso } := by
  unfold loadTokens saveTokens readFile writeFile
  simp only [List.lookup, beq_self_eq_true]
  rw [decrypt_encrypt hs1 hi1, decrypt_encrypt hs2 hi2]

theorem lookup_filter_ne {fs : AccountsDir} {k k₂ : String} (h : k₂ ≠ k) :
    (fs.filter (fun p => p.1 ≠ k)).lookup k₂ = fs.lookup k₂ := by
  induction fs with
  | nil => rfl
  | cons a rest ih =>
    obtain ⟨k1, v1⟩ := a
    by_cases hk : k1 = k
    · subst hk
      have hdec : (decide (k1 ≠ k1) : Bool) = false := by simp
      have hbeq : (k₂ == k1) = false := beq_eq_false_iff_ne.mpr h
      simp only [List.filter, hdec]
      rw [ih, List.lookup, hbeq]
    · have hdec : (decide (k1 ≠ k) : Bool) = true := by simp [hk]
      simp only [List.filter, hdec]
      rw [List.lookup, List.lookup]
      cases hbeq : (k₂ == k1) with
      | true => rfl
      | false => exact ih

theorem loadTokens_writeFile_ne {fs : AccountsDir} {name : String} {v : TokenFile}
    {email : String} (h : emailToFilename email ≠ name) :
    loadTokens (writeFile fs name v) email = loadTokens fs email := by
  unfold loadTokens readFile writeFile
  rw [List.lookup]
  have hbeq : (emailToFilename email == name) = false := by
    simp [h]
  rw [hbeq]
  show (match (fs.filter (fun p => p.1 ≠ name)).lookup (emailToFilename email) with
    | none => none | some TokenFile.malformed => none
    | some (.parsed r) => _) = _
  rw [lookup_filter_ne h]

/-! ## Concrete fixtures used by witnesses -/

/-- Salt/iv pairs standing in for one run of the random generator. -/
def wSalts : SaltPack :=
  { accessSalt := 1, accessIv := 2, refreshSalt := 3, refreshIv := 4 }

/-- A Gmail account whose token is still fresh at `now = 0`. -/
def wTokensFresh : StoredTokens :=
  { email := "user@gmail.com", provider := "google", accessToken := "AT"
    refreshToken := "RT", tokenExpiry := 1000000
    scopes := ["https://mail.google.com/"], createdAt := "c0", updatedAt := "u1" }

/-- A Gmail account whose token expired long before `now = 1000000`. -/
def wTokensOld : StoredTokens :=
  { email := "user@gmail.com", provider := "google", accessToken := "AT"
    refreshToken := "RT", tokenExpiry := 1000
    scopes := ["https://mail.google.com/"], createdAt := "c0", updatedAt := "u0" }

/-- Accounts directory holding the fresh record. -/
def wDirFresh : AccountsDir := saveTokens [] wTokensFresh wSalts "u1"

/-- Accounts directory holding the expired record. -/
def wDirOld : AccountsDir := saveTokens [] wTokensOld wSalts "u0"

/-- A configured Google OAuth client. -/
def wClients : ClientTable :=
  [("google", { provider := "google", clientId := "id", clientSecret := "sec" })]

/-- A 401 answer to the refresh grant. -/
def wResp401 : HttpResponse := { status := 401, body := "expired", json := none }

/-- A 500 answer to the refresh grant. -/
def wResp500 : HttpResponse := { status := 500, body := "oops", json := none }

/-- A successful refresh answer rotating the refresh token. -/
def wRespOk : HttpResponse :=
  { status := 200, body := ""
    json := some { access_token := some "AT2", refresh_token := some "RT2"
                   expires_in := some 7200 } }

/-- An account file whose content is unparseable JSON. -/
def corruptDir : AccountsDir :=
  [(emailToFilename "bad@example.com", TokenFile.malformed)]

/-! ## Claim theorems -/

/-- C5: for every string, including the empty string and non-ASCII
text, `decrypt (encrypt s) = s`, and `encrypt` serializes to exactly
four hex-encoded parts `salt:iv:authTag:ciphertext` joined by the `:`
delimiter (the salt and iv being the fresh random values drawn for that
call, bounded by their hex widths). -/
theorem encrypt_decrypt_round_trip {salt iv : Nat} (hs : salt < 16 ^ 8)
    (hi : iv < 16 ^ 8) (s : String) :
    decrypt (encrypt salt iv s) = some s ∧
    (splitSep ':' (encrypt salt iv s).data).length = 4 ∧
    ∀ p ∈ splitSep ':' (encrypt salt iv s).data, ∀ c ∈ p,
      (hexVal c).isSome = true := by
  refine ⟨decrypt_encrypt hs hi s, ?_, ?_⟩
  · rw [splitSep_encrypt]; rfl
  · rw [splitSep_encrypt]
    intro p hp c hc
    simp only [encParts, List.mem_cons, List.not_mem_nil, or_false] at hp
    rcases hp with rfl | rfl | rfl | rfl
    · obtain ⟨d, hd, rfl⟩ := hexFixed_mem hc
      exact hexVal_isSome_hexDigitChar hd
    · obtain ⟨d, hd, rfl⟩ := hexFixed_mem hc
      exact hexVal_isSome_hexDigitChar hd
    · obtain ⟨d, hd, rfl⟩ := hexFixed_mem hc
      exact hexVal_isSome_hexDigitChar hd
    · exact hexSyms_isHex hc

/-- Witness for C5 at a concrete non-ASCII plaintext. -/
theorem encrypt_decrypt_round_trip_witness :
    (1 : Nat) < 16 ^ 8 ∧ (2 : Nat) < 16 ^ 8 ∧
    decrypt (encrypt 1 2 "héllo✓") = some "héllo✓" :=
  ⟨by norm_num, by norm_num,
    (encrypt_decrypt_round_trip (by norm_num) (by norm_num) "héllo✓").1⟩

/-- C6: `loadTokens` returns `none`, not an error, when the account
file is missing, when its JSON is malformed, or when a stored field
fails decryption; and `decrypt` itself fails closed on any input that
does not split into exactly four `:`-separated parts. -/
theorem loadTokens_fails_closed (fs : AccountsDir) (email : String) :
    (readFile fs (emailToFilename email) = none → loadTokens fs email = none) ∧
    (readFile fs (emailToFilename email) = some TokenFile.malformed →
      loadTokens fs email = none) ∧
    (∀ r, readFile fs (emailToFilename email) = some (TokenFile.parsed r) →
      decrypt r.accessTokenEnc = none ∨ decrypt r.refreshTokenEnc = none →
      loadTokens fs email = none) ∧
    (∀ ct : String, (splitSep ':' ct.data).length ≠ 4 → decrypt ct = none) := by
  refine ⟨?_, ?_, ?_, ?_⟩
  · intro h; unfold loadTokens; rw [h]
  · intro h; unfold loadTokens; rw [h]
  · intro r hr hd
    simp only [loadTokens, hr]
    rcases hd with hd | hd
    · rw [hd]
    · rw [hd]
      cases decrypt r.accessTokenEnc <;> rfl
  · intro ct hlen
    unfold decrypt
    generalize hG : splitSep ':' ct.data = l at hlen ⊢
    rcases l with _ | ⟨a, l⟩
    · rfl
    rcases l with _ | ⟨b, l⟩
    · rfl
    rcases l with _ | ⟨c, l⟩
    · rfl
    rcases l with _ | ⟨d, l⟩
    · rfl
    rcases l with _ | ⟨e, l⟩
    · simp at hlen
    · rfl

/-- Witness for C6: an empty directory and a malformed ciphertext. -/
theorem loadTokens_fails_closed_witness :
    loadTokens [] "user@gmail.com" = none ∧ decrypt "nocolons" = none :=
  ⟨(loadTokens_fails_closed [] "user@gmail.com").1 (by decide),
    (loadTokens_fails_closed [] "user@gmail.com").2.2.2 "nocolons" (by decide)⟩

/-- C9: the cipher is non-deterministic across calls in the sense
that two calls drawing different random salts produce different
ciphertext strings, whatever the ivs and the (equal) plaintext. -/
theorem encrypt_fresh_salt_differs {salt₁ salt₂ iv₁ iv₂ : Nat}
    (h₁ : salt₁ < 16 ^ 8) (h₂ : salt₂ < 16 ^ 8) (hne : salt₁ ≠ salt₂)
    (s : String) : encrypt salt₁ iv₁ s ≠ encrypt salt₂ iv₂ s := by
  intro heq
  have hdata := congrArg String.data heq
  have hparts : encParts salt₁ iv₁ s = encParts salt₂ iv₂ s := by
    rw [← splitSep_encrypt salt₁ iv₁ s, ← splitSep_encrypt salt₂ iv₂ s, hdata]
  have hhead : hexFixed 8 salt₁ = hexFixed 8 salt₂ := by
    have := congrArg List.head? hparts
    simpa [encParts] using this
  have hsame : some salt₁ = some salt₂ := by
    rw [← hexParse_hexFixed h₁, ← hexParse_hexFixed h₂, hhead]
  exact hne (Option.some.inj hsame)

/-- Witness for C9 at two concrete salts and the same plaintext. -/
theorem encrypt_fresh_salt_differs_witness :
    encrypt 1 2 "token" ≠ encrypt 3 4 "token" :=
  encrypt_fresh_salt_differs (by norm_num) (by norm_num) (by norm_num) "token"

/-- C10: `hasTokens` answers from bare file existence, independent of
whether the content decrypts or parses; on a corrupted file it answers
`true` while `loadTokens` answers `none`. -/
theorem hasTokens_vs_loadTokens (fs : AccountsDir) (email : String) :
    (∀ f, readFile fs (emailToFilename email) = some f →
      hasTokens fs email = true) ∧
    (readFile fs (emailToFilename email) = none → hasTokens fs email = false) ∧
    (hasTokens corruptDir "bad@example.com" = true ∧
      loadTokens corruptDir "bad@example.com" = none) := by
  refine ⟨?_, ?_, by decide, by decide⟩
  · intro f hf
    unfold hasTokens
    unfold readFile at hf
    rw [hf]
    rfl
  · intro hf
    unfold hasTokens
    unfold readFile at hf
    rw [hf]
    rfl

/-- Witness for C10: the corrupted fixture file exists but loads as none. -/
theorem hasTokens_vs_loadTokens_witness :
    hasTokens corruptDir "bad@example.com" = true ∧
    loadTokens corruptDir "bad@example.com" = none :=
  ⟨(hasTokens_vs_loadTokens corruptDir "bad@example.com").1
      TokenFile.malformed (by decide),
    (hasTokens_vs_loadTokens corruptDir "bad@example.com").2.2.2⟩

/-- C7: once the refresh grant has been issued, a 400 or 401 answer
fails with the re-authenticate error, and every other non-2xx status
fails with the generic transient failure carrying that status; the two
outcomes are distinct constructors, distinguishable by the caller. -/
theorem refresh_status_distinction (clients : ClientTable)
    (tokens : StoredTokens) (resp : HttpResponse) (p : OAuthProviderConfig)
    (cc : OAuthClientConfig) (hdet : detectProvider tokens.email = some p)
    (hcc : clients.lookup p.name = some cc) (hrt : tokens.refreshToken ≠ "")
    (hbad : respOk resp = false) :
    ((resp.status = 400 ∨ resp.status = 401) →
      refreshAccessToken clients tokens resp =
        (.error (.reauthenticate tokens.email resp.body), 1)) ∧
    (¬(resp.status = 400 ∨ resp.status = 401) →
      refreshAccessToken clients tokens resp =
        (.error (.transientFailure resp.status resp.body), 1)) ∧
    (∀ e b st b', RefreshError.reauthenticate e b ≠
      RefreshError.transientFailure st b') := by
  refine ⟨?_, ?_, fun e b st b' h => RefreshError.noConfusion h⟩
  · intro h
    simp only [refreshAccessToken, hdet, hcc]
    rw [if_neg hrt, if_pos (by simp [hbad]), if_pos h]
  · intro h
    simp only [refreshAccessToken, hdet, hcc]
    rw [if_neg hrt, if_pos (by simp [hbad]), if_neg h]

/-- Witness for C7 at a concrete 401 response. -/
theorem refresh_status_distinction_witness :
    refreshAccessToken wClients wTokensOld wResp401 =
      (.error (.reauthenticate "user@gmail.com" "expired"), 1) :=
  (refresh_status_distinction wClients wTokensOld wResp401 GOOGLE_PROVIDER
    { provider := "google", clientId := "id", clientSecret := "sec" }
    (by decide) (by decide) (by decide) (by decide)).1 (Or.inr (by decide))

/-- C2: when `now < tokenExpiry - REFRESH_BUFFER_MS` (buffer 60000 ms)
for the loaded record, `ensureFreshToken` returns the cached decrypted
access token, leaves the store untouched, and issues zero refresh-grant
calls. -/
theorem ensureFreshToken_cached (fs : AccountsDir) (clients : ClientTable)
    (now : Int) (resp : HttpResponse) (sp : SaltPack) (nowIso email : String)
    (tokens : StoredTokens) (hload : loadTokens fs email = some tokens)
    (hnow : 0 ≤ now) (hfresh : now < tokens.tokenExpiry - REFRESH_BUFFER_MS) :
    ensureFreshToken fs clients now resp sp nowIso email =
      (.ok tokens.accessToken, fs, 0) := by
  have hexp : tokens.tokenExpiry ≠ 0 := by
    unfold REFRESH_BUFFER_MS at hfresh
    intro h0
    rw [h0] at hfresh
    omega
  simp only [ensureFreshToken, hload]
  rw [if_pos ⟨hexp, hfresh⟩]

/-- Witness for C2: the fresh fixture at `now = 0` serves the cache. -/
theorem ensureFreshToken_cached_witness :
    ensureFreshToken wDirFresh wClients 0 wResp401 wSalts "iso2" "user@gmail.com" =
      (.ok "AT", wDirFresh, 0) :=
  ensureFreshToken_cached wDirFresh wClients 0 wResp401 wSalts "iso2"
    "user@gmail.com" wTokensFresh (by decide) (by decide) (by decide)

/-- C1: when the loaded record is within the refresh buffer
(`tokenExpiry - 60000 ≤ now`), `ensureFreshToken` issues exactly one
refresh-grant call, and on a success carrying access token `a` and
optional `expires_in` (defaulting to 3600 when absent) persists a
record with access token `a`, expiry `now + expiresIn * 1000`, and the
rotated refresh token when the provider supplied one, else the stored
one; it returns `a`. -/
theorem ensureFreshToken_refresh (fs : AccountsDir) (clients : ClientTable)
    (now : Int) (resp : HttpResponse) (sp : SaltPack) (nowIso email : String)
    (tokens : StoredTokens) (p : OAuthProviderConfig) (cc : OAuthClientConfig)
    (j : RespJson) (a : String)
    (hload : loadTokens fs email = some tokens)
    (hemail : tokens.email = email)
    (hdue : tokens.tokenExpiry - REFRESH_BUFFER_MS ≤ now)
    (hdet : detectProvider email = some p)
    (hcc : clients.lookup p.name = some cc)
    (hrt : tokens.refreshToken ≠ "")
    (hok : respOk resp = true)
    (hjson : resp.json = some j)
    (ha : j.access_token = some a) (hane : a ≠ "")
    (hexp : ∀ n, j.expires_in = some n → n ≠ 0)
    (hrot : ∀ s, j.refresh_token = some s → s ≠ "")
    (hs1 : sp.accessSalt < 16 ^ 8) (hi1 : sp.accessIv < 16 ^ 8)
    (hs2 : sp.refreshSalt < 16 ^ 8) (hi2 : sp.refreshIv < 16 ^ 8) :
    (ensureFreshToken fs clients now resp sp nowIso email).1 = .ok a ∧
    (ensureFreshToken fs clients now resp sp nowIso email).2.2 = 1 ∧
    loadTokens (ensureFreshToken fs clients now resp sp nowIso email).2.1 email =
      some { tokens with
        accessToken := a
        tokenExpiry := now +
          (match j.expires_in with | none => 3600 | some n => n) * 1000
        refreshToken := (match j.refresh_token with
          | none => tokens.refreshToken | some s => s)
        updatedAt := nowIso } := by
  have hR : refreshAccessToken clients tokens resp =
      (.ok { accessToken := a, expiresIn := jsOrExpires j.expires_in
             refreshToken := j.refresh_token }, 1) := by
    simp only [refreshAccessToken, hemail, hdet, hcc, hjson, ha]
    rw [if_neg hrt, if_neg (by simp [hok]), if_neg hane]
  have hnotfresh :
      ¬(tokens.tokenExpiry ≠ 0 ∧ now < tokens.tokenExpiry - REFRESH_BUFFER_MS) :=
    fun hc => absurd hc.2 (not_lt.mpr hdue)
  have hE : ensureFreshToken fs clients now resp sp nowIso email =
      (.ok a,
        saveTokens fs
          { tokens with
            accessToken := a
            tokenExpiry := now + jsOrExpires j.expires_in * 1000
            refreshToken := jsOrString j.refresh_token tokens.refreshToken
            updatedAt := nowIso } sp nowIso, 1) := by
    simp only [ensureFreshToken, hload]
    rw [if_neg hnotfresh, hR]
  refine ⟨by rw [hE], by rw [hE], ?_⟩
  rw [hE, ← hemail]
  have hsave := loadTokens_saveTokens fs
    { tokens with
      accessToken := a
      tokenExpiry := now + jsOrExpires j.expires_in * 1000
      refreshToken := jsOrString j.refresh_token tokens.refreshToken
      updatedAt := nowIso } sp nowIso hs1 hi1 hs2 hi2
  dsimp only at hsave
  rw [hsave]
  rcases hje : j.expires_in with _ | n
  · rcases hjr : j.refresh_token with _ | s
    · rfl
    · simp [jsOrExpires, jsOrString, hrot s hjr]
  · rcases hjr : j.refresh_token with _ | s
    · simp [jsOrExpires, jsOrString, hexp n hje]
    · simp [jsOrExpires, jsOrString, hexp n hje, hrot s hjr]

/-- Witness for C1: the expired fixture refreshed by a rotating 200
response; one refresh call, rotated token persisted. -/
theorem ensureFreshToken_refresh_witness :
    (ensureFreshToken wDirOld wClients 1000000 wRespOk wSalts "iso9"
      "user@gmail.com").1 = .ok "AT2" ∧
    (ensureFreshToken wDirOld wClients 1000000 wRespOk wSalts "iso9"
      "user@gmail.com").2.2 = 1 :=
  have h := ensureFreshToken_refresh wDirOld wClients 1000000 wRespOk wSalts
    "iso9" "user@gmail.com" wTokensOld GOOGLE_PROVIDER
    { provider := "google", clientId := "id", clientSecret := "sec" }
    { access_token := some "AT2", refresh_token := some "RT2"
      expires_in := some 7200 } "AT2"
    (by decide) (by decide) (by decide) (by decide) (by decide) (by decide)
    (by decide) (by decide) (by decide) (by decide)
    (by intro n hn; cases hn; decide) (by intro s hs; cases hs; decide)
    (by decide) (by decide) (by decide) (by decide)
  ⟨h.1, h.2.1⟩

/-- Request handling paired with the accounts directory: the handler
closure in `waitForCallback` has no access to the token store, so the
store component passes through untouched. -/
def handleRequestWithStore (expectedState : String)
    (st : Listener × AccountsDir) (r : CallbackReq) :
    (Listener × AccountsDir) × CallbackResp :=
  (((handleRequest expectedState st.1 r).1, st.2),
    (handleRequest expectedState st.1 r).2)

/-- A provider redirect carrying an `error` parameter. -/
def deniedReq : CallbackReq :=
  { path := "/callback", code := none, reqState := none
    error := some "access_denied", errorDescription := none }

theorem handleRequest_shape (es : String) (l : Listener) (r : CallbackReq) :
    (handleRequest es l r).1 = l ∨ ∃ s, (handleRequest es l r).1 = settle l s := by
  unfold handleRequest
  split
  · exact Or.inl rfl
  · dsimp only
    split
    · exact Or.inr ⟨_, rfl⟩
    · split
      · exact Or.inr ⟨_, rfl⟩
      · split
        · exact Or.inr ⟨_, rfl⟩
        · exact Or.inr ⟨_, rfl⟩

/-- Counterexample to C3: the Denied transition out of Listening does
not close the socket (`closeCount` stays 0), and an exchange failure in
`runOAuthFlow` propagates with the listener still open. -/
theorem listener_denied_leaves_socket_open :
    ((handleRequest "abc123" { lstate := .listening, closeCount := 0 }
        deniedReq).1).lstate = LState.denied "access_denied" ∧
    ((handleRequest "abc123" { lstate := .listening, closeCount := 0 }
        deniedReq).1).closeCount = 0 ∧
    (@runFlowExchangeStep String { lstate := LState.resolved "CODE", closeCount := 0 }
        (.error "exchange failed")).1.closeCount = 0 := by
  decide

/-- C3 as amended: the promise settles at most once, no request branch
closes the socket, the timeout closes it exactly once, `runOAuthFlow`
closes it exactly once only after a successful exchange, and an
exchange failure propagates without closing. -/
theorem listener_close_discipline (es : String) (l : Listener) (r : CallbackReq) :
    (l.lstate ≠ LState.listening → (handleRequest es l r).1.lstate = l.lstate) ∧
    ((handleRequest es l r).1.closeCount = l.closeCount) ∧
    ((handleTimeout l).closeCount = l.closeCount + 1) ∧
    (∀ msg : String, (@runFlowExchangeStep String l (.error msg)).1 = l) ∧
    (∀ v : String, (runFlowExchangeStep l (.ok v)).1.closeCount = l.closeCount + 1) := by
  refine ⟨?_, ?_, rfl, fun msg => rfl, fun v => rfl⟩
  · intro h
    rcases handleRequest_shape es l r with hs | ⟨s, hs⟩
    · rw [hs]
    · rw [hs]
      unfold settle
      rw [if_neg h]
  · rcases handleRequest_shape es l r with hs | ⟨s, hs⟩
    · rw [hs]
    · rw [hs]
      unfold settle
      split <;> rfl

/-- Witness for C3's amended statement: an already-resolved listener
ignores a second request, and the timeout adds exactly one close. -/
theorem listener_close_discipline_witness :
    ((handleRequest "abc123" { lstate := LState.resolved "C1", closeCount := 0 }
        deniedReq).1).lstate = LState.resolved "C1" ∧
    (handleTimeout { lstate := LState.resolved "C1", closeCount := 0 }).closeCount = 1 :=
  ⟨(listener_close_discipline "abc123"
      { lstate := LState.resolved "C1", closeCount := 0 } deniedReq).1 (by decide),
    (listener_close_discipline "abc123"
      { lstate := LState.resolved "C1", closeCount := 0 } deniedReq).2.2.1⟩

/-- C4: per-request behaviour of the callback handler while listening:
a callback-path request with no error, a non-empty code and the
expected state resolves with exactly that code and answers 200; an
error parameter rejects as provider-denied and answers 200; a missing
code or a state mismatch rejects as mismatched, answers 400, and leaves
the token store untouched; any other path answers 404 and changes
nothing. -/
theorem waitForCallback_request_dispatch (es : String) (l : Listener)
    (r : CallbackReq) (hl : l.lstate = LState.listening) :
    (∀ c, r.path = "/callback" → r.error = none → r.code = some c → c ≠ "" →
      r.reqState = some es →
      handleRequest es l r =
        ({ lstate := LState.resolved c, closeCount := l.closeCount },
          CallbackResp.successPage) ∧
      respStatusCode (handleRequest es l r).2 = 200) ∧
    (∀ e, r.path = "/callback" → r.error = some e → e ≠ "" →
      handleRequest es l r =
        ({ lstate := LState.denied (jsOrString r.errorDescription e),
           closeCount := l.closeCount },
          CallbackResp.errorPage (jsOrString r.errorDescription e)) ∧
      respStatusCode (handleRequest es l r).2 = 200) ∧
    (r.path = "/callback" → r.error = none →
      (r.code = none ∨ r.code = some "" ∨ r.reqState ≠ some es) →
      handleRequest es l r =
        ({ lstate := LState.mismatched, closeCount := l.closeCount },
          CallbackResp.badRequestPage
            "Invalid callback: missing code or state mismatch") ∧
      respStatusCode (handleRequest es l r).2 = 400 ∧
      ∀ fs : AccountsDir, (handleRequestWithStore es (l, fs) r).1.2 = fs) ∧
    (r.path ≠ "/callback" →
      handleRequest es l r = (l, CallbackResp.notFound) ∧
      respStatusCode (handleRequest es l r).2 = 404) := by
  refine ⟨?_, ?_, ?_, ?_⟩
  · intro c hp he hc hcne hst
    have hE : handleRequest es l r =
        ({ lstate := LState.resolved c, closeCount := l.closeCount },
          CallbackResp.successPage) := by
      simp [handleRequest, settle, hp, he, hc, hcne, hst, hl]
    exact ⟨hE, by rw [hE]; rfl⟩
  · intro e hp he hene
    have hE : handleRequest es l r =
        ({ lstate := LState.denied (jsOrString r.errorDescription e),
           closeCount := l.closeCount },
          CallbackResp.errorPage (jsOrString r.errorDescription e)) := by
      simp [handleRequest, settle, hp, he, hene, hl]
    exact ⟨hE, by rw [hE]; rfl⟩
  · intro hp he hbad
    have hE : handleRequest es l r =
        ({ lstate := LState.mismatched, closeCount := l.closeCount },
          CallbackResp.badRequestPage
            "Invalid callback: missing code or state mismatch") := by
      rcases hbad with hb | hb | hb
      · simp [handleRequest, settle, hp, he, hb, hl]
      · simp [handleRequest, settle, hp, he, hb, hl]
      · cases hcode : r.code with
        | none => simp [handleRequest, settle, hp, he, hcode, hl]
        | some c => simp [handleRequest, settle, hp, he, hcode, hb, hl]
    refine ⟨hE, by rw [hE]; rfl, fun fs => rfl⟩
  · intro hp
    have hE : handleRequest es l r = (l, CallbackResp.notFound) := by
      simp [handleRequest, hp]
    exact ⟨hE, by rw [hE]; rfl⟩

/-- Witness for C4: the spec's own example, expected state `abc123`
against a request carrying state `xyz`, and a matching request carrying
a code. -/
theorem waitForCallback_request_dispatch_witness :
    handleRequest "abc123" { lstate := LState.listening, closeCount := 0 }
      { path := "/callback", code := some "CODE", reqState := some "xyz"
        error := none, errorDescription := none } =
      ({ lstate := LState.mismatched, closeCount := 0 },
        CallbackResp.badRequestPage
          "Invalid callback: missing code or state mismatch") ∧
    handleRequest "abc123" { lstate := LState.listening, closeCount := 0 }
      { path := "/callback", code := some "CODE", reqState := some "abc123"
        error := none, errorDescription := none } =
      ({ lstate := LState.resolved "CODE", closeCount := 0 },
        CallbackResp.successPage) :=
  ⟨((waitForCallback_request_dispatch "abc123"
      { lstate := LState.listening, closeCount := 0 }
      { path := "/callback", code := some "CODE", reqState := some "xyz"
        error := none, errorDescription := none } rfl).2.2.1
      (by decide) (by decide) (by decide)).1,
    ((waitForCallback_request_dispatch "abc123"
      { lstate := LState.listening, closeCount := 0 }
      { path := "/callback", code := some "CODE", reqState := some "abc123"
        error := none, errorDescription := none } rfl).1 "CODE"
      (by decide) (by decide) (by decide) (by decide) (by decide)).1⟩

/-- An account at `a.b@c`. -/
def wTokensDotted : StoredTokens :=
  { email := "a.b@c", provider := "google", accessToken := "A1"
    refreshToken := "R1", tokenExpiry := 5, scopes := [], createdAt := "c"
    updatedAt := "u" }

/-- A distinct account at `a@b.c`. -/
def wTokensSub : StoredTokens :=
  { email := "a@b.c", provider := "google", accessToken := "A2"
    refreshToken := "R2", tokenExpiry := 5, scopes := [], createdAt := "c"
    updatedAt := "u" }

/-- An account at an unrelated address. -/
def wTokensOther : StoredTokens :=
  { email := "other@gmail.com", provider := "google", accessToken := "A3"
    refreshToken := "R3", tokenExpiry := 5, scopes := [], createdAt := "c"
    updatedAt := "u" }

/-- Directory holding only the `a.b@c` record. -/
def wDirDotted : AccountsDir := saveTokens [] wTokensDotted wSalts "u"

/-- Counterexample to C8: `emailToFilename` is not injective — the
distinct emails `a.b@c` and `a@b.c` map to the same file, and saving
the second account overwrites the first one's stored record (loading
`a.b@c` afterwards yields the record whose email field is `a@b.c`). -/
theorem emailToFilename_collision :
    "a.b@c" ≠ "a@b.c" ∧
    emailToFilename "a.b@c" = emailToFilename "a@b.c" ∧
    (loadTokens (saveTokens wDirDotted wTokensSub wSalts "u") "a.b@c").map
      StoredTokens.email = some "a@b.c" := by
  refine ⟨by decide, by decide, ?_⟩
  decide

/-- C8 as amended: the transform is not injective, but whenever two
emails map to distinct filenames, saving or deleting one account leaves
the other's loadable record unchanged. -/
theorem store_operations_frame (fs : AccountsDir) (t : StoredTokens)
    (e₁ e₂ : String) (sp : SaltPack) (nowIso : String)
    (hsave_ne : emailToFilename t.email ≠ emailToFilename e₂)
    (hdel_ne : emailToFilename e₁ ≠ emailToFilename e₂) :
    loadTokens (saveTokens fs t sp nowIso) e₂ = loadTokens fs e₂ ∧
    loadTokens (deleteTokens fs e₁).2 e₂ = loadTokens fs e₂ := by
  constructor
  · exact loadTokens_writeFile_ne (Ne.symm hsave_ne)
  · unfold deleteTokens
    dsimp only
    cases hlk : fs.lookup (emailToFilename e₁) with
    | none => rfl
    | some v =>
      show loadTokens (fs.filter (fun p => p.1 ≠ emailToFilename e₁)) e₂ =
        loadTokens fs e₂
      unfold loadTokens readFile
      rw [lookup_filter_ne (Ne.symm hdel_ne)]

/-- Witness for C8's amended statement: saving an unrelated account
leaves the `a.b@c` record untouched, as does deleting a missing one. -/
theorem store_operations_frame_witness :
    loadTokens (saveTokens wDirDotted wTokensOther wSalts "u") "a.b@c" =
      loadTokens wDirDotted "a.b@c" ∧
    loadTokens (deleteTokens wDirDotted "other@gmail.com").2 "a.b@c" =
      loadTokens wDirDotted "a.b@c" :=
  store_operations_frame wDirDotted wTokensOther "other@gmail.com" "a.b@c"
    wSalts "u" (by decide) (by decide)
